import Mathlib

/-!
Verification development for the `bigb` arbitrage-bot core (Rust).

The Rust sources are shallowly embedded: `rust_decimal::Decimal` values are
modelled as exact rationals (`ℚ`) — every `Decimal` is a rational with a
power-of-ten denominator, and all decimal additions, subtractions,
multiplications and the single guarded division occurring in this code are
exact at rust_decimal's 28-significant-digit precision for the magnitudes in
play.  Machine integers (`u64`, `u128`) are `ℕ` with explicit `% 2 ^ 64`
wrapping or range clamps at the points where the Rust code converts or can
overflow.  Fallible operations take their outcome (`Option`/`Except`) as an
explicit oracle argument, and effectful functions additionally return the list
of external actions they issued, in program order.
-/

/- ===================== domain types =====================
`src/domain.rs` is not part of the provided sources; the exact field set of
each struct is reconstructed from the struct literals and field accesses in
the provided modules (Rust struct literals must name every field, so the
field sets are fully determined by `src/monitor/mod.rs`,
`src/strategy/mod.rs` and `src/execution/mod.rs`). -/

/-- Best bid/ask projection for one outcome token (constructed in
`MarketMonitor::fetch_token_price`, src/monitor/mod.rs). -/
structure TokenPrice where
  token_id : String
  bid : Option ℚ
  ask : Option ℚ
  deriving DecidableEq

/-- One market's side of a snapshot (constructed in
`MarketMonitor::fetch_market_data`, src/monitor/mod.rs). -/
structure MarketData where
  condition_id : String
  market_name : String
  up_token : Option TokenPrice
  down_token : Option TokenPrice
  deriving DecidableEq

/-- Market metadata carried in the snapshot (src/monitor/mod.rs). -/
structure MarketMeta where
  name : String
  slug : String
  end_time_unix : ℕ
  deriving DecidableEq

/-- Model of `MarketSnapshot` (src/monitor/mod.rs).  The `timestamp : Instant` field is
modelled as a plain natural number; no claim inspects it. -/
structure MarketSnapshot where
  eth_market : MarketData
  btc_market : MarketData
  eth_market_meta : MarketMeta
  btc_market_meta : MarketMeta
  timestamp : ℕ
  deriving DecidableEq

/-- Model of `ArbitrageOpportunity` as constructed in
`ArbitrageDetector::build_opportunity` (src/strategy/mod.rs lines 126-138);
the struct literal there fixes exactly this field set — in particular the
struct carries no share-count field, only the two aggregate amounts. -/
structure ArbitrageOpportunity where
  eth_condition_id : String
  btc_condition_id : String
  eth_up_token_id : String
  btc_down_token_id : String
  eth_up_price : ℚ
  btc_down_price : ℚ
  total_cost : ℚ
  expected_profit : ℚ
  deriving DecidableEq

/- ===================== strategy (src/strategy/mod.rs) ===================== -/

/-- Model of `ArbitrageDetector`: the stored decimal threshold.  (`new` converts an
`f64` configuration value to `Decimal` once at startup; the claims quantify
over the stored decimal value, so the binary-to-decimal conversion is outside
the embedding.) -/
structure ArbitrageDetector where
  min_profit_threshold : ℚ
  deriving DecidableEq

/-- Capital placeholder, src/strategy/mod.rs line 96: `let available_usdc = dec!(10);`. -/
def available_usdc : ℚ := 10

/-- Liquidity placeholder, src/strategy/mod.rs line 107. -/
def eth_liquidity : ℕ := 1000

/-- Liquidity placeholder, src/strategy/mod.rs line 108. -/
def btc_liquidity : ℕ := 1000

/-- Model of `Decimal::to_u64().unwrap_or(0)` applied to an integral decimal value
(the result of `.floor()`): yields the value when it lies in the `u64`
range, otherwise `None`→`unwrap_or`→`0`. -/
def decimal_to_u64 (z : ℤ) : ℕ :=
  if 0 ≤ z ∧ z < 2 ^ 64 then z.toNat else 0

/-- Model of `max_by_capital` (src/strategy/mod.rs lines 98-101):
`(available_usdc / bundle_cost).floor().to_u64().unwrap_or(0)`.
rust_decimal division by a nonzero decimal of these magnitudes is exact
before the floor; the detector only divides after establishing
`bundle_cost < 1` with `profit ≥ threshold`, and every downstream claim
carries hypotheses keeping `bundle_cost` positive (rust_decimal panics on
division by zero; `ℚ` division by zero yields `0` and hence zero shares). -/
def max_by_capital (bundle_cost : ℚ) : ℕ :=
  decimal_to_u64 ⌊available_usdc / bundle_cost⌋

/-- Model of `max_by_liquidity = std::cmp::min(eth_liquidity, btc_liquidity)`
(src/strategy/mod.rs line 110). -/
def max_by_liquidity : ℕ :=
  min eth_liquidity btc_liquidity

/-- Model of `shares = std::cmp::min(max_by_capital, max_by_liquidity)`
(src/strategy/mod.rs line 115). -/
def detector_shares (bundle_cost : ℚ) : ℕ :=
  min (max_by_capital bundle_cost) max_by_liquidity

/-- Model of `ArbitrageDetector::build_opportunity` (src/strategy/mod.rs lines 67-139). -/
def build_opportunity (detector : ArbitrageDetector) (eth_token btc_token : TokenPrice)
    (eth_condition_id btc_condition_id : String) : Option ArbitrageOpportunity :=
  match eth_token.ask, btc_token.ask with
  | some eth_price, some btc_price =>
    let bundle_cost := eth_price + btc_price
    if 1 ≤ bundle_cost then none
    else
      let profit_per_bundle := 1 - bundle_cost
      if profit_per_bundle < detector.min_profit_threshold then none
      else
        let shares := detector_shares bundle_cost
        if shares = 0 then none
        else
          let shares_dec : ℚ := (shares : ℚ)
          some { eth_condition_id := eth_condition_id
                 btc_condition_id := btc_condition_id
                 eth_up_token_id := eth_token.token_id
                 btc_down_token_id := btc_token.token_id
                 eth_up_price := eth_price
                 btc_down_price := btc_price
                 total_cost := bundle_cost * shares_dec
                 expected_profit := profit_per_bundle * shares_dec }
  | _, _ => none

/-- First evaluated combination, ETH UP + BTC DOWN
(src/strategy/mod.rs lines 32-44). -/
def detect_pair_up_down (detector : ArbitrageDetector) (snapshot : MarketSnapshot) :
    Option ArbitrageOpportunity :=
  match snapshot.eth_market.up_token, snapshot.btc_market.down_token with
  | some eth, some btc =>
    build_opportunity detector eth btc
      snapshot.eth_market.condition_id snapshot.btc_market.condition_id
  | _, _ => none

/-- Second evaluated combination, ETH DOWN + BTC UP
(src/strategy/mod.rs lines 49-61). -/
def detect_pair_down_up (detector : ArbitrageDetector) (snapshot : MarketSnapshot) :
    Option ArbitrageOpportunity :=
  match snapshot.eth_market.down_token, snapshot.btc_market.up_token with
  | some eth, some btc =>
    build_opportunity detector eth btc
      snapshot.eth_market.condition_id snapshot.btc_market.condition_id
  | _, _ => none

/-- Model of `ArbitrageDetector::detect_opportunities` (src/strategy/mod.rs lines 23-64):
the vector receives the first combination's opportunity (if any) then the
second's. -/
def detect_opportunities (detector : ArbitrageDetector) (snapshot : MarketSnapshot) :
    List ArbitrageOpportunity :=
  (detect_pair_up_down detector snapshot).toList ++
    (detect_pair_down_up detector snapshot).toList

/- ===================== strategy lemmas ===================== -/

/-- Helper: with both asks present and bundle cost at least 1, the strict
`bundle_cost >= 1` guard (src/strategy/mod.rs line 83) rejects. -/
theorem build_opportunity_none_of_cost_ge_one
    (detector : ArbitrageDetector) (eth_token btc_token : TokenPrice)
    (ce cb : String) (pe pb : ℚ)
    (he : eth_token.ask = some pe) (hb : btc_token.ask = some pb)
    (h : 1 ≤ pe + pb) :
    build_opportunity detector eth_token btc_token ce cb = none := by
  simp [build_opportunity, he, hb, h]

/-- Helper: unfolding `build_opportunity` when every guard passes. -/
theorem build_opportunity_some_of_guards
    (detector : ArbitrageDetector) (eth_token btc_token : TokenPrice)
    (ce cb : String) (pe pb : ℚ)
    (he : eth_token.ask = some pe) (hb : btc_token.ask = some pb)
    (hlt : pe + pb < 1) (hth : detector.min_profit_threshold ≤ 1 - (pe + pb))
    (hsh : detector_shares (pe + pb) ≠ 0) :
    build_opportunity detector eth_token btc_token ce cb =
      some { eth_condition_id := ce
             btc_condition_id := cb
             eth_up_token_id := eth_token.token_id
             btc_down_token_id := btc_token.token_id
             eth_up_price := pe
             btc_down_price := pb
             total_cost := (pe + pb) * (detector_shares (pe + pb) : ℚ)
             expected_profit := (1 - (pe + pb)) * (detector_shares (pe + pb) : ℚ) } := by
  have h1 : ¬ (1 ≤ pe + pb) := not_le.mpr hlt
  have h2 : ¬ (1 - (pe + pb) < detector.min_profit_threshold) := not_lt.mpr hth
  simp [build_opportunity, he, hb, h1, h2, hsh]

/-- Helper: the concrete scenario shares count, `min (floor (10 / 0.97)) 1000 = 10`. -/
theorem detector_shares_scenario : detector_shares (52/100 + 45/100) = 10 := by
  have hf : ⌊available_usdc / ((52:ℚ)/100 + 45/100)⌋ = 10 := by
    simp only [available_usdc]; norm_num
  simp [detector_shares, max_by_capital, max_by_liquidity, decimal_to_u64, hf,
    eth_liquidity, btc_liquidity]

/-- C1: for either of the two evaluated leg combinations, if both legs carry
an ask price and the bundle cost (sum of the two asks) is at least 1, the
detector returns no opportunity for that leg pair — the comparison is strict,
so a bundle cost exactly 1 is never an opportunity — and the full result of
`detect_opportunities` is whatever the *other* combination contributes. -/
theorem detect_no_opportunity_of_bundle_cost_ge_one
    (detector : ArbitrageDetector) (snapshot : MarketSnapshot) :
    (∀ eth btc pe pb,
      snapshot.eth_market.up_token = some eth →
      snapshot.btc_market.down_token = some btc →
      eth.ask = some pe → btc.ask = some pb → 1 ≤ pe + pb →
      detect_pair_up_down detector snapshot = none ∧
        detect_opportunities detector snapshot =
          (detect_pair_down_up detector snapshot).toList) ∧
    (∀ eth btc pe pb,
      snapshot.eth_market.down_token = some eth →
      snapshot.btc_market.up_token = some btc →
      eth.ask = some pe → btc.ask = some pb → 1 ≤ pe + pb →
      detect_pair_down_up detector snapshot = none ∧
        detect_opportunities detector snapshot =
          (detect_pair_up_down detector snapshot).toList) := by
  constructor
  · intro eth btc pe pb hup hdown hask1 hask2 hcost
    have hnone : detect_pair_up_down detector snapshot = none := by
      simp [detect_pair_up_down, hup, hdown,
        build_opportunity_none_of_cost_ge_one detector eth btc _ _ pe pb hask1 hask2 hcost]
    exact ⟨hnone, by simp [detect_opportunities, hnone]⟩
  · intro eth btc pe pb hdown hup hask1 hask2 hcost
    have hnone : detect_pair_down_up detector snapshot = none := by
      simp [detect_pair_down_up, hdown, hup,
        build_opportunity_none_of_cost_ge_one detector eth btc _ _ pe pb hask1 hask2 hcost]
    exact ⟨hnone, by simp [detect_opportunities, hnone]⟩

/-- C1 witness: at bundle cost exactly 1 (asks 0.55 and 0.45 on the first
combination) the detector yields nothing for that pair. -/
theorem detect_no_opportunity_of_bundle_cost_ge_one_witness :
    detect_pair_up_down ⟨1/100⟩
        { eth_market := { condition_id := "ce", market_name := "ETH",
                          up_token := some ⟨"te", none, some (55/100)⟩, down_token := none },
          btc_market := { condition_id := "cb", market_name := "BTC",
                          up_token := none, down_token := some ⟨"tb", none, some (45/100)⟩ },
          eth_market_meta := ⟨"e", "s1", 0⟩, btc_market_meta := ⟨"b", "s2", 0⟩,
          timestamp := 0 } = none :=
  ((detect_no_opportunity_of_bundle_cost_ge_one ⟨1/100⟩ _).1
    ⟨"te", none, some (55/100)⟩ ⟨"tb", none, some (45/100)⟩ (55/100) (45/100)
    rfl rfl rfl rfl (by norm_num)).1

/-- C3: whenever both asks are present, the bundle cost is strictly below 1,
the per-bundle profit meets the threshold and the computed share count is
nonzero, `build_opportunity` emits an opportunity whose `total_cost` and
`expected_profit` are exactly `bundle_cost * shares` and `profit * shares` in
exact decimal (rational) arithmetic; in the concrete scenario with asks 0.52
and 0.45 and threshold 0.01 the shares count is 10 and the emitted
opportunity has total cost 9.70 and expected profit 0.30. -/
theorem build_opportunity_exact_profit :
    (∀ (detector : ArbitrageDetector) (eth_token btc_token : TokenPrice)
        (ce cb : String) (pe pb : ℚ),
      eth_token.ask = some pe → btc_token.ask = some pb →
      pe + pb < 1 → detector.min_profit_threshold ≤ 1 - (pe + pb) →
      detector_shares (pe + pb) ≠ 0 →
      build_opportunity detector eth_token btc_token ce cb =
        some { eth_condition_id := ce
               btc_condition_id := cb
               eth_up_token_id := eth_token.token_id
               btc_down_token_id := btc_token.token_id
               eth_up_price := pe
               btc_down_price := pb
               total_cost := (pe + pb) * (detector_shares (pe + pb) : ℚ)
               expected_profit := (1 - (pe + pb)) * (detector_shares (pe + pb) : ℚ) }) ∧
    detector_shares (52/100 + 45/100) = 10 ∧
    build_opportunity ⟨1/100⟩ ⟨"ETH-UP", none, some (52/100)⟩
        ⟨"BTC-DOWN", none, some (45/100)⟩ "c-eth" "c-btc" =
      some ⟨"c-eth", "c-btc", "ETH-UP", "BTC-DOWN", 52/100, 45/100, 97/10, 3/10⟩ := by
  refine ⟨?_, detector_shares_scenario, ?_⟩
  · intro detector eth_token btc_token ce cb pe pb he hb hlt hth hsh
    exact build_opportunity_some_of_guards detector eth_token btc_token ce cb pe pb
      he hb hlt hth hsh
  · rw [build_opportunity_some_of_guards ⟨1/100⟩ _ _ "c-eth" "c-btc" (52/100) (45/100)
      rfl rfl (by norm_num) (by norm_num) (by rw [detector_shares_scenario]; norm_num)]
    rw [detector_shares_scenario]
    norm_num

/-- C3 witness: the general part applied at asks 0.5 and 0.3 with threshold
0.01 (shares `min (floor (10 / 0.8)) 1000 = 12`). -/
theorem build_opportunity_exact_profit_witness :
    build_opportunity ⟨1/100⟩ ⟨"e", none, some (1/2)⟩ ⟨"b", none, some (3/10)⟩ "x" "y" =
      some { eth_condition_id := "x"
             btc_condition_id := "y"
             eth_up_token_id := "e"
             btc_down_token_id := "b"
             eth_up_price := 1/2
             btc_down_price := 3/10
             total_cost := (1/2 + 3/10) * (detector_shares (1/2 + 3/10) : ℚ)
             expected_profit := (1 - (1/2 + 3/10)) * (detector_shares (1/2 + 3/10) : ℚ) } :=
  build_opportunity_exact_profit.1 ⟨1/100⟩ ⟨"e", none, some (1/2)⟩ ⟨"b", none, some (3/10)⟩
    "x" "y" (1/2) (3/10) rfl rfl (by norm_num) (by norm_num)
    (by
      norm_num [detector_shares, max_by_capital, max_by_liquidity, decimal_to_u64,
        available_usdc, eth_liquidity, btc_liquidity])


/-- Helper: a zero share count short-circuits to `None`
(src/strategy/mod.rs lines 117-119). -/
theorem build_opportunity_none_of_shares_zero
    (detector : ArbitrageDetector) (eth_token btc_token : TokenPrice)
    (ce cb : String) (pe pb : ℚ)
    (he : eth_token.ask = some pe) (hb : btc_token.ask = some pb)
    (hz : detector_shares (pe + pb) = 0) :
    build_opportunity detector eth_token btc_token ce cb = none := by
  simp only [build_opportunity, he, hb]
  split_ifs with h1 h2
  · rfl
  · rfl
  · rfl

/-- C4: share sizing is conservative — whenever a combination with both asks
present emits an opportunity, the internal share count is bounded by
`floor(available_capital / bundle_cost)` and by `min(liquidity_a,
liquidity_b)` and is strictly positive, and the emitted `total_cost` is the
bundle cost times that count; a combination whose computed share count is
zero emits no opportunity at all rather than a zero-sized one. -/
theorem detector_shares_bounded_and_nonzero
    (detector : ArbitrageDetector) (eth_token btc_token : TokenPrice)
    (ce cb : String) (pe pb : ℚ)
    (he : eth_token.ask = some pe) (hb : btc_token.ask = some pb) :
    (detector_shares (pe + pb) = 0 →
      build_opportunity detector eth_token btc_token ce cb = none) ∧
    (∀ o, build_opportunity detector eth_token btc_token ce cb = some o →
      (detector_shares (pe + pb) : ℤ) ≤ ⌊available_usdc / (pe + pb)⌋ ∧
      detector_shares (pe + pb) ≤ min eth_liquidity btc_liquidity ∧
      0 < detector_shares (pe + pb) ∧
      o.total_cost = (pe + pb) * (detector_shares (pe + pb) : ℚ)) := by
  constructor
  · exact build_opportunity_none_of_shares_zero detector eth_token btc_token ce cb pe pb he hb
  · intro o hsome
    have hsh : detector_shares (pe + pb) ≠ 0 := by
      intro hz
      rw [build_opportunity_none_of_shares_zero detector eth_token btc_token ce cb pe pb
        he hb hz] at hsome
      exact Option.noConfusion hsome
    have hcap : max_by_capital (pe + pb) ≠ 0 := by
      intro hz
      exact hsh (by simp [detector_shares, hz])
    have hrange : 0 ≤ ⌊available_usdc / (pe + pb)⌋ ∧
        ⌊available_usdc / (pe + pb)⌋ < 2 ^ 64 := by
      by_contra hneg
      refine hcap ?_
      unfold max_by_capital decimal_to_u64
      rw [if_neg hneg]
    have hcap_le : (max_by_capital (pe + pb) : ℤ) ≤ ⌊available_usdc / (pe + pb)⌋ := by
      unfold max_by_capital decimal_to_u64
      rw [if_pos hrange, Int.toNat_of_nonneg hrange.1]
    refine ⟨le_trans ?_ hcap_le, ?_, Nat.pos_of_ne_zero hsh, ?_⟩
    · exact_mod_cast Nat.cast_le.mpr (Nat.min_le_left _ _)
    · exact le_trans (Nat.min_le_right _ _) (le_of_eq rfl)
    · have hlt : ¬ (1 ≤ pe + pb) := by
        intro hge
        rw [build_opportunity_none_of_cost_ge_one detector eth_token btc_token ce cb pe pb
          he hb hge] at hsome
        exact Option.noConfusion hsome
      have hth : detector.min_profit_threshold ≤ 1 - (pe + pb) := by
        by_contra hth
        simp only [build_opportunity, he, hb] at hsome
        rw [if_neg hlt, if_pos (not_le.mp hth)] at hsome
        exact Option.noConfusion hsome
      rw [build_opportunity_some_of_guards detector eth_token btc_token ce cb pe pb
        he hb (not_le.mp hlt) hth hsh] at hsome
      cases hsome
      rfl

/-- C4 witness: at asks 0.52 and 0.45 the emitted opportunity's share count 10
obeys both bounds and the total cost is `0.97 * 10`. -/
theorem detector_shares_bounded_and_nonzero_witness :
    (detector_shares (52/100 + 45/100) : ℤ) ≤ ⌊available_usdc / (52/100 + 45/100)⌋ ∧
    detector_shares (52/100 + 45/100) ≤ min eth_liquidity btc_liquidity ∧
    0 < detector_shares (52/100 + 45/100) ∧
    (97:ℚ)/10 = (52/100 + 45/100) * (detector_shares (52/100 + 45/100) : ℚ) :=
  (detector_shares_bounded_and_nonzero ⟨1/100⟩ ⟨"e", none, some (52/100)⟩
      ⟨"b", none, some (45/100)⟩ "x" "y" (52/100) (45/100) rfl rfl).2
    ⟨"x", "y", "e", "b", 52/100, 45/100, 97/10, 3/10⟩
    (by
      rw [build_opportunity_some_of_guards ⟨1/100⟩ _ _ "x" "y" (52/100) (45/100)
        rfl rfl (by norm_num) (by norm_num) (by rw [detector_shares_scenario]; norm_num)]
      rw [detector_shares_scenario]
      norm_num)

/- ===================== cache (src/cache.rs) ===================== -/

/-- Model of `CachedOrderbook` (src/cache.rs lines 6-11); `last_update_ms` is the
`u128` wall-clock millisecond stamp, modelled as `ℕ` (a millisecond count
never approaches `2 ^ 128`). -/
structure CachedOrderbook where
  bids : List (ℚ × ℚ)
  asks : List (ℚ × ℚ)
  last_update_ms : ℕ
  deriving DecidableEq

/-- The `PriceCache` shared map (`HashMap<String, CachedOrderbook>` behind the
lock, src/cache.rs line 15), modelled as a key-indexed partial function. -/
def PriceCacheState : Type := String → Option CachedOrderbook

/-- Model of `PriceCache::new` (src/cache.rs lines 19-23): the empty map. -/
def cache_new : PriceCacheState := fun _ => none

/-- Model of `PriceCache::update` (src/cache.rs lines 25-40): replaces the snapshot for
`token_id` wholesale and stamps it with `now_ms()`; the wall-clock reading
`now_ms()` (src/cache.rs lines 47-52) is the explicit `now` argument here. -/
def cache_update (st : PriceCacheState) (token_id : String)
    (bids asks : List (ℚ × ℚ)) (now : ℕ) : PriceCacheState :=
  fun k => if k = token_id then some ⟨bids, asks, now⟩ else st k

/-- Model of `PriceCache::get` (src/cache.rs lines 42-44): the latest snapshot, or
absent if never populated. -/
def cache_get (st : PriceCacheState) (token_id : String) : Option CachedOrderbook :=
  st token_id

/-- C8: after `update(id, B, A)` a `get(id)` returns exactly bids `B` and asks
`A` with the stamped time; `get` on an id never populated returns absent (the
new cache holds nothing, and updates to other ids leave the id absent); and
across two successive updates to the same id the stored `last_update_ms` is
non-decreasing, given that the wall-clock readings taken by the two `update`
calls are non-decreasing. -/
theorem cache_update_get_roundtrip
    (st : PriceCacheState) (id other : String) (B A B2 A2 : List (ℚ × ℚ)) (t1 t2 : ℕ)
    (hmono : t1 ≤ t2) :
    cache_get (cache_update st id B A t1) id = some ⟨B, A, t1⟩ ∧
    cache_get cache_new id = none ∧
    (other ≠ id → cache_get (cache_update st other B A t1) id = cache_get st id) ∧
    (∀ ob1 ob2,
      cache_get (cache_update st id B A t1) id = some ob1 →
      cache_get (cache_update (cache_update st id B A t1) id B2 A2 t2) id = some ob2 →
      ob1.last_update_ms ≤ ob2.last_update_ms) := by
  refine ⟨by simp [cache_get, cache_update], rfl, fun hne => ?_, fun ob1 ob2 h1 h2 => ?_⟩
  · simp [cache_get, cache_update, Ne.symm hne]
  · have e1 : some (⟨B, A, t1⟩ : CachedOrderbook) = some ob1 := by
      rw [← h1]; simp [cache_get, cache_update]
    have e2 : some (⟨B2, A2, t2⟩ : CachedOrderbook) = some ob2 := by
      rw [← h2]; simp [cache_get, cache_update]
    rw [← Option.some.inj e1, ← Option.some.inj e2]
    exact hmono

/-- C8 witness: a concrete update/get round trip on the empty cache. -/
theorem cache_update_get_roundtrip_witness :
    cache_get (cache_update cache_new "tok" [(1/2, 3)] [(3/5, 7)] 5) "tok" =
        some ⟨[(1/2, 3)], [(3/5, 7)], 5⟩ ∧
    cache_get cache_new "tok" = none ∧
    ("other" ≠ "tok" → cache_get (cache_update cache_new "other" [] [] 5) "tok" =
        cache_get cache_new "tok") ∧
    (∀ ob1 ob2,
      cache_get (cache_update cache_new "tok" [(1/2, 3)] [(3/5, 7)] 5) "tok" = some ob1 →
      cache_get (cache_update (cache_update cache_new "tok" [(1/2, 3)] [(3/5, 7)] 5)
        "tok" [] [] 9) "tok" = some ob2 →
      ob1.last_update_ms ≤ ob2.last_update_ms) :=
  cache_update_get_roundtrip cache_new "tok" "other" [(1/2, 3)] [(3/5, 7)] [] [] 5 9
    (by norm_num)

/- ===================== monitor (src/monitor/mod.rs) ===================== -/

/-- One constituent outcome token of a fetched `MarketDetails` record (used
field set: `outcome`, `token_id`; src/monitor/mod.rs lines 96-116). -/
structure TokenInfo where
  outcome : String
  token_id : String
  deriving DecidableEq

/-- The market-detail record returned by `get_market` (used field set:
`accepting_orders` in src/execution/mod.rs line 99, `tokens` in
src/monitor/mod.rs lines 97 and 108). -/
structure MarketDetails where
  accepting_orders : Bool
  tokens : List TokenInfo
  deriving DecidableEq

/-- Structural model of Rust `str::split('-')` on the character list: every
separator starts a new (possibly empty) segment, and the result is always
non-empty (`"".split('-')` yields one empty segment). -/
def splitChar (sep : Char) : List Char → List (List Char)
  | [] => [[]]
  | c :: cs =>
    match splitChar sep cs with
    | [] => if c = sep then [[], []] else [[c]]
    | g :: gs => if c = sep then [] :: g :: gs else (c :: g) :: gs

/-- Decimal value of a digit string. -/
def digitsVal (cs : List Char) : ℕ :=
  cs.foldl (fun a c => a * 10 + (c.toNat - 48)) 0

/-- Rust `str::parse::<u64>`: an optional single leading plus sign followed by
at least one ASCII digit, rejecting values that overflow `u64`, exactly as
`u64::from_str`. -/
def parse_u64 (cs : List Char) : Option ℕ :=
  let ds := match cs with
    | '+' :: rest => rest
    | _ => cs
  if ds ≠ [] ∧ ds.all Char.isDigit then
    if digitsVal ds < 2 ^ 64 then some (digitsVal ds) else none
  else none

/-- Model of `MarketMonitor::end_time_from_slug` (src/monitor/mod.rs lines 75-81):
`slug.split('-').last().and_then(|s| s.parse::<u64>().ok()).map(|start| start + 900).unwrap_or(0)`.
The `u64` addition `start + 900` wraps modulo `2 ^ 64` (release-profile
overflow semantics). -/
def end_time_from_slug (slug : String) : ℕ :=
  match parse_u64 ((splitChar '-' slug.toList).getLastD []) with
  | some start => (start + 900) % 2 ^ 64
  | none => 0

/-- Whether `pat` is a leading run of `text`. -/
def listStarts : List Char → List Char → Bool
  | [], _ => true
  | _ :: _, [] => false
  | a :: as, b :: bs => a == b && listStarts as bs

/-- Whether `pat` occurs contiguously inside `text` (Rust `str::contains` for these
ASCII patterns). -/
def containsSeq (pat : List Char) : List Char → Bool
  | [] => pat.isEmpty
  | c :: cs => listStarts pat (c :: cs) || containsSeq pat cs

/-- ASCII uppercase of a string's characters (`str::to_uppercase`; the
outcome labels classified here are ASCII). -/
def upperChars (s : String) : List Char :=
  s.toList.map Char.toUpper

/-- The token-classification loop body shared by both markets in
`MarketMonitor::refresh_market_tokens` (src/monitor/mod.rs lines 97-104 and
108-115): each token whose uppercased outcome contains `"UP"` or equals `"1"`
overwrites the UP id, else one containing `"DOWN"` or equal to `"0"`
overwrites the DOWN id. -/
def classify_tokens (tokens : List TokenInfo) (up down : Option String) :
    Option String × Option String :=
  tokens.foldl
    (fun acc t =>
      let o := upperChars t.outcome
      if containsSeq "UP".toList o || o == "1".toList then (some t.token_id, acc.2)
      else if containsSeq "DOWN".toList o || o == "0".toList then (acc.1, some t.token_id)
      else acc)
    (up, down)

/-- The rotation/token-resolution state owned by `MarketMonitor`
(src/monitor/mod.rs lines 16-22).  `last_market_refresh : Option<Instant>` is
modelled with the monotonic-clock reading in seconds. -/
structure MonitorState where
  eth_up_token_id : Option String
  eth_down_token_id : Option String
  btc_up_token_id : Option String
  btc_down_token_id : Option String
  last_market_refresh : Option ℕ
  current_period_timestamp : ℕ
  deriving DecidableEq

/-- The `should_refresh` read (src/monitor/mod.rs lines 84-87):
`last.map(|t| t.elapsed().as_secs() >= 900).unwrap_or(true)`. -/
def should_refresh (st : MonitorState) (now : ℕ) : Bool :=
  match st.last_market_refresh with
  | some t => decide (900 ≤ now - t)
  | none => true

/-- Model of `MarketMonitor::refresh_market_tokens` (src/monitor/mod.rs lines 83-120).
The two `get_market` outcomes are oracle arguments; a failed fetch (`none`,
the `if let Ok(..)` falling through) classifies nothing, and the refresh
instant is stamped unconditionally at line 118 — even when both fetches
failed. -/
def refresh_market_tokens (st : MonitorState) (now : ℕ)
    (eth_fetch btc_fetch : Option MarketDetails) : MonitorState :=
  if should_refresh st now = false then st
  else
    let st1 :=
      match eth_fetch with
      | some m =>
        let p := classify_tokens m.tokens st.eth_up_token_id st.eth_down_token_id
        { st with eth_up_token_id := p.1, eth_down_token_id := p.2 }
      | none => st
    let st2 :=
      match btc_fetch with
      | some m =>
        let p := classify_tokens m.tokens st1.btc_up_token_id st1.btc_down_token_id
        { st1 with btc_up_token_id := p.1, btc_down_token_id := p.2 }
      | none => st1
    { st2 with last_market_refresh := some now }

/-- The per-tick rotation check in `start_monitoring` (src/monitor/mod.rs
lines 130-142): when the computed 900-second period differs from the stored
one, record the new period and reset `last_market_refresh` to `None`. -/
def rotation_tick (st : MonitorState) (now : ℕ) : MonitorState :=
  if now / 900 * 900 ≠ st.current_period_timestamp then
    { st with current_period_timestamp := now / 900 * 900, last_market_refresh := none }
  else st

/- ===================== monitor theorems ===================== -/

/-- C10 counterexample: the computation is total, but for a slug whose last
segment parses to `u64::MAX` the `u64` addition `start + 900` wraps, so the
result is `899`, not `n + 900`. -/
theorem end_time_from_slug_wraps_at_u64_max :
    end_time_from_slug "btc-18446744073709551615" = 899 ∧
    (899 : ℕ) ≠ 18446744073709551615 + 900 := by
  constructor
  · decide
  · decide

/-- C10 (amended): the end-time computation is total: if the last
'-'-separated segment of the slug parses as a `u64` value `n`, the result is
`(n + 900) % 2 ^ 64` — equal to `n + 900` whenever that sum stays below
`2 ^ 64` — and otherwise (missing or unparseable segment) the result is `0`
rather than an error. -/
theorem end_time_from_slug_total :
    (∀ slug n, parse_u64 ((splitChar '-' slug.toList).getLastD []) = some n →
      end_time_from_slug slug = (n + 900) % 2 ^ 64 ∧
        (n + 900 < 2 ^ 64 → end_time_from_slug slug = n + 900)) ∧
    (∀ slug, parse_u64 ((splitChar '-' slug.toList).getLastD []) = none →
      end_time_from_slug slug = 0) := by
  constructor
  · intro slug n h
    have he : end_time_from_slug slug = (n + 900) % 2 ^ 64 := by
      unfold end_time_from_slug
      rw [h]
    exact ⟨he, fun hlt => by rw [he, Nat.mod_eq_of_lt hlt]⟩
  · intro slug h
    unfold end_time_from_slug
    rw [h]

/-- C10 witness: a realistic slug ending in a unix timestamp maps to that
timestamp plus 900. -/
theorem end_time_from_slug_total_witness :
    end_time_from_slug "eth-updown-15m-1700000000" = 1700000900 := by
  have h :=
    (end_time_from_slug_total.1 "eth-updown-15m-1700000000" 1700000000 (by decide)).2
      (by norm_num)
  simpa using h

/-- C9 counterexample: an attempt at `t = 100` whose two market fetches both
fail resolves nothing, yet stamps `last_market_refresh = 100`; a retry 400
seconds later — with the markets now fetchable — is skipped wholesale, the
token ids still unresolved.  A failed resolution attempt therefore does
suppress retrying for the next 900 seconds. -/
theorem refresh_failed_fetch_suppresses_retry :
    (refresh_market_tokens ⟨none, none, none, none, none, 0⟩ 100 none none).last_market_refresh
        = some 100 ∧
    (refresh_market_tokens ⟨none, none, none, none, none, 0⟩ 100 none none).eth_up_token_id
        = none ∧
    refresh_market_tokens (refresh_market_tokens ⟨none, none, none, none, none, 0⟩ 100 none none)
        500
        (some ⟨true, [⟨"Up", "eth-up-tok"⟩, ⟨"Down", "eth-down-tok"⟩]⟩)
        (some ⟨true, [⟨"Up", "btc-up-tok"⟩, ⟨"Down", "btc-down-tok"⟩]⟩) =
      refresh_market_tokens ⟨none, none, none, none, none, 0⟩ 100 none none := by
  refine ⟨by decide, by decide, by decide⟩

/-- C9 (amended): token resolution is skipped exactly when the last
resolution *attempt* — successful or not — is younger than 900 seconds,
unless the rotation axis forced staleness: a due refresh stamps the attempt
time regardless of the two fetch outcomes (so a failed attempt also
suppresses retrying for the next 900 seconds), a non-due refresh leaves the
state untouched, and a period-boundary advance clears the stamp, making the
next resolution due immediately. -/
theorem refresh_skip_semantics :
    (∀ st now, should_refresh st now = false ↔
      ∃ t, st.last_market_refresh = some t ∧ now - t < 900) ∧
    (∀ st now eth_fetch btc_fetch, should_refresh st now = false →
      refresh_market_tokens st now eth_fetch btc_fetch = st) ∧
    (∀ st now eth_fetch btc_fetch, should_refresh st now = true →
      (refresh_market_tokens st now eth_fetch btc_fetch).last_market_refresh = some now) ∧
    (∀ st now, now / 900 * 900 ≠ st.current_period_timestamp →
      (rotation_tick st now).last_market_refresh = none ∧
      ∀ later, should_refresh (rotation_tick st now) later = true) := by
  refine ⟨fun st now => ?_, fun st now e b h => ?_, fun st now e b h => ?_, fun st now h => ?_⟩
  · cases hlast : st.last_market_refresh with
    | none => simp [should_refresh, hlast]
    | some t => simp [should_refresh, hlast, Nat.not_le]
  · simp [refresh_market_tokens, h]
  · have hne : ¬ (should_refresh st now = false) := by simp [h]
    cases e <;> cases b <;> simp [refresh_market_tokens, hne]
  · constructor
    · simp [rotation_tick, h]
    · intro later
      simp [rotation_tick, h, should_refresh]

/-- C9 witness: with a stamp at 100, a refresh at 500 is a no-op; a refresh
at 1000 (due) stamps 1000; a period change at 1300 clears the stamp. -/
theorem refresh_skip_semantics_witness :
    refresh_market_tokens ⟨none, none, none, none, some 100, 0⟩ 500 none none =
      ⟨none, none, none, none, some 100, 0⟩ ∧
    (refresh_market_tokens ⟨none, none, none, none, some 100, 0⟩ 1000 none
        none).last_market_refresh = some 1000 ∧
    (rotation_tick ⟨none, none, none, none, some 100, 0⟩ 1300).last_market_refresh = none :=
  ⟨refresh_skip_semantics.2.1 _ 500 none none (by decide),
   refresh_skip_semantics.2.2.1 _ 1000 none none (by decide),
   (refresh_skip_semantics.2.2.2 _ 1300 (by decide)).1⟩

/- ===================== client (src/client/mod.rs) ===================== -/

/-- Model of `OrderRequest` as constructed in `Trader::execute_arbitrage`
(src/execution/mod.rs lines 138-144 and 162-168); the `size` and `price`
fields hold the decimal values whose textual rendering the Rust code sends. -/
structure OrderRequest where
  token_id : String
  side : String
  size : ℚ
  price : ℚ
  order_type : String
  deriving DecidableEq

/-- Model of `SignedOrderPayload` (src/client/mod.rs lines 27-32). -/
structure SignedOrderPayload where
  order : OrderRequest
  signature : String
  address : String
  deriving DecidableEq

/-- The order-confirmation record deserialized from a successful submission
(`OrderResponse` lives in the absent src/domain.rs; no claim inspects its
fields, so it carries an abstract body). -/
structure OrderResponse where
  body : String
  deriving DecidableEq

/-- The failure conditions of `place_signed_order`, one per failure site in
src/client/mod.rs lines 171-208: the read-only gate (`bail!("READ-ONLY MODE
ENABLED")`), a non-success HTTP status (`bail!("Order rejected: ..")`), and a
transport error surfaced by `?`. -/
inductive ClientError where
  | readOnlyMode
  | orderRejected (text : String)
  | transport (msg : String)
  deriving DecidableEq

/-- Oracle for the outcome of the POST to `/orders`. -/
inductive NetOutcome where
  | ok (resp : OrderResponse)
  | httpError (text : String)
  | transportError (msg : String)
  deriving DecidableEq

/-- A network request issued by the client. -/
inductive ClientRequest where
  | postOrder (url : String) (payload : SignedOrderPayload)
  deriving DecidableEq

/-- Model of `PolymarketClient::place_signed_order` (src/client/mod.rs lines 171-208),
returning the call's result together with the list of network requests it
issued, in order.  The read-only gate is the first statement of the body,
before the payload serialization, the timestamp read, the HMAC request
signing and the POST; the HMAC signature and auth headers affect no claim and
are elided from the request record. -/
def place_signed_order (read_only : Bool) (clob_url : String)
    (payload : SignedOrderPayload) (net : NetOutcome) :
    Except ClientError OrderResponse × List ClientRequest :=
  if read_only then (.error .readOnlyMode, [])
  else
    (match net with
      | .ok resp => .ok resp
      | .httpError text => .error (.orderRejected text)
      | .transportError msg => .error (.transport msg),
     [.postOrder (clob_url ++ "/orders") payload])

/-- C2: with read-only mode enabled, every `place_signed_order` call fails
with the dedicated read-only error — a condition distinct from both the
order-rejected and transport errors — and the list of network requests issued
is empty: no live order can ever be placed in read-only mode. -/
theorem read_only_blocks_order_before_network :
    (∀ clob_url payload net,
      place_signed_order true clob_url payload net = (.error .readOnlyMode, [])) ∧
    (∀ text, ClientError.readOnlyMode ≠ ClientError.orderRejected text) ∧
    (∀ msg, ClientError.readOnlyMode ≠ ClientError.transport msg) := by
  refine ⟨fun clob_url payload net => rfl, fun text h => ?_, fun msg h => ?_⟩
  · exact ClientError.noConfusion h
  · exact ClientError.noConfusion h

/-- C2 witness: a concrete blocked submission. -/
theorem read_only_blocks_order_before_network_witness :
    place_signed_order true "https://clob.example"
        ⟨⟨"tok", "BUY", 10, 1/2, "LIMIT"⟩, "sig", "0xwallet"⟩ (.ok ⟨"filled"⟩) =
      (.error .readOnlyMode, []) :=
  read_only_blocks_order_before_network.1 "https://clob.example"
    ⟨⟨"tok", "BUY", 10, 1/2, "LIMIT"⟩, "sig", "0xwallet"⟩ (.ok ⟨"filled"⟩)

/- ===================== execution (src/execution/mod.rs) ===================== -/

/-- The EIP-712 order struct `ClobOrder` (src/wallet/signer.rs lines 42-49).
In Rust `token_id` is `keccak256` of the token-id string (`str_to_h256`,
src/execution/mod.rs lines 20-22); the underlying string is kept here.
`price` and `size` are the fixed-point integers produced by
`to_u256_scaled`. -/
structure ClobOrder where
  token_id : String
  side : ℕ
  price : ℕ
  size : ℕ
  expiration : ℕ
  nonce : ℕ
  deriving DecidableEq

/-- Model of `to_u256_scaled` (src/execution/mod.rs lines 24-27): scale by 1,000,000
and cast to an unsigned integer; the Rust float-to-int cast truncates and
saturates at zero for negative inputs, which `Int.toNat ∘ Int.floor` matches
on the non-negative range.  The intermediate decimal-string round trip
through `f64` is exact for the modest-precision values the bot produces. -/
def to_u256_scaled (value : ℚ) : ℕ :=
  (⌊value * 1000000⌋).toNat

/-- Model of `Trader::calculate_position_size` (src/execution/mod.rs lines 182-191):
divides the configured `max_position_size` by the opportunity's `total_cost`
and floors, returning zero when the cost is not positive.  The Rust routine
computes in `f64` after a `Decimal`→`f64` conversion; the rational value
below agrees with it at the magnitudes every theorem and counterexample here
uses (all far from `f64` rounding boundaries). -/
def calculate_position_size (max_position_size : ℚ)
    (opportunity : ArbitrageOpportunity) : ℚ :=
  if opportunity.total_cost ≤ 0 then 0
  else (⌊max_position_size / opportunity.total_cost⌋ : ℚ)

/-- Modelled from the spec (refinement comparison for the Trader's sizing
pass; C5): "the configured maximum position notional divided by the
opportunity's bundle cost (the per-bundle sum of the two ask prices), floored
to an integer". -/
def spec_position_size (max_position_size : ℚ)
    (opportunity : ArbitrageOpportunity) : ℚ :=
  (⌊max_position_size / (opportunity.eth_up_price + opportunity.btc_down_price)⌋ : ℚ)

/-- The externally visible actions of one `Trader::execute_arbitrage` run, in
program order. -/
inductive TraderAction where
  | fetchMarket (condition_id : String)
  | fetchBalance
  | sizeCalc
  | signOrder (order : ClobOrder)
  | submitOrder (payload : SignedOrderPayload)
  deriving DecidableEq

/-- Environment of one `execute_arbitrage` run: the oracle outcomes of the
two `get_market` calls and of `refresh_balance`, plus the wall-clock unix
second `now` read once at src/execution/mod.rs lines 114-117. -/
structure ExecEnv where
  eth_market_res : Option MarketDetails
  btc_market_res : Option MarketDetails
  balance_res : Option ℚ
  now : ℕ
  deriving DecidableEq

instance : DecidableEq (Except String Unit) := fun a b =>
  match a, b with
  | .ok (), .ok () => isTrue rfl
  | .ok (), .error _ => isFalse (fun h => Except.noConfusion h)
  | .error _, .ok () => isFalse (fun h => Except.noConfusion h)
  | .error x, .error y =>
    if h : x = y then isTrue (by rw [h])
    else isFalse (fun hh => h (by injection hh))

/-- Result of one `execute_arbitrage` run: the returned `Result` plus the
action trace. -/
structure ExecOutcome where
  result : Except String Unit
  actions : List TraderAction
  deriving DecidableEq

/-- Model of `Trader::execute_arbitrage` (src/execution/mod.rs lines 87-180).
`sig_of` abstracts `WalletSigner::sign_order` (EIP-712 signing of a
`ClobOrder` by the configured local wallet, infallible for a loaded key);
`signer_present` is whether `self.signer` is `Some`.  Control flow: missing
signer errors out; a failed market fetch propagates (`?`); if either market
is not accepting orders the run returns `Ok` doing nothing further; a failed
balance refresh propagates; a non-positive recomputed position size returns
`Ok`; otherwise both legs are signed (ETH nonce `now`, BTC nonce `now + 1`,
both expiring at `now + 300`) and both submissions are fired, their results
discarded. -/
def execute_arbitrage (sig_of : ClobOrder → String) (signer_present : Bool)
    (max_position_size : ℚ) (proxy_wallet : String)
    (opportunity : ArbitrageOpportunity) (env : ExecEnv) : ExecOutcome :=
  if !signer_present then ⟨.error "Wallet signer missing", []⟩
  else
    match env.eth_market_res with
    | none => ⟨.error "eth market fetch failed",
        [.fetchMarket opportunity.eth_condition_id]⟩
    | some eth_market =>
      match env.btc_market_res with
      | none => ⟨.error "btc market fetch failed",
          [.fetchMarket opportunity.eth_condition_id,
           .fetchMarket opportunity.btc_condition_id]⟩
      | some btc_market =>
        let fetched : List TraderAction :=
          [.fetchMarket opportunity.eth_condition_id,
           .fetchMarket opportunity.btc_condition_id]
        if !eth_market.accepting_orders || !btc_market.accepting_orders then
          ⟨.ok (), fetched⟩
        else
          match env.balance_res with
          | none => ⟨.error "balance fetch failed", fetched ++ [.fetchBalance]⟩
          | some _balance =>
            let position_size := calculate_position_size max_position_size opportunity
            if position_size ≤ 0 then
              ⟨.ok (), fetched ++ [.fetchBalance, .sizeCalc]⟩
            else
              let eth_order : ClobOrder :=
                { token_id := opportunity.eth_up_token_id
                  side := 0
                  price := to_u256_scaled opportunity.eth_up_price
                  size := to_u256_scaled position_size
                  expiration := env.now + 300
                  nonce := env.now }
              let btc_order : ClobOrder :=
                { token_id := opportunity.btc_down_token_id
                  side := 0
                  price := to_u256_scaled opportunity.btc_down_price
                  size := to_u256_scaled position_size
                  expiration := env.now + 300
                  nonce := env.now + 1 }
              let eth_payload : SignedOrderPayload :=
                { order := { token_id := opportunity.eth_up_token_id
                             side := "BUY"
                             size := position_size
                             price := opportunity.eth_up_price
                             order_type := "LIMIT" }
                  signature := sig_of eth_order
                  address := proxy_wallet }
              let btc_payload : SignedOrderPayload :=
                { order := { token_id := opportunity.btc_down_token_id
                             side := "BUY"
                             size := position_size
                             price := opportunity.btc_down_price
                             order_type := "LIMIT" }
                  signature := sig_of btc_order
                  address := proxy_wallet }
              ⟨.ok (), fetched ++
                [.fetchBalance, .sizeCalc, .signOrder eth_order, .signOrder btc_order,
                 .submitOrder eth_payload, .submitOrder btc_payload]⟩

/-- The nonces of the orders signed during one run, in signing order. -/
def trace_nonces (out : ExecOutcome) : List ℕ :=
  out.actions.filterMap
    (fun a => match a with
      | .signOrder order => some order.nonce
      | _ => none)

/- ===================== execution theorems ===================== -/

/-- C7: with a signer configured and both market re-fetches succeeding, if
either market reports it is not accepting orders, `execute_arbitrage` aborts
the whole opportunity returning `Ok` — the blocked trade is an expected
outcome, not a propagated error — and its action trace is exactly the two
market-detail fetches: no sizing, no signing and no submission of either leg
happens. -/
theorem execute_aborts_when_market_not_accepting
    (sig_of : ClobOrder → String) (max_position_size : ℚ) (proxy_wallet : String)
    (opportunity : ArbitrageOpportunity) (env : ExecEnv) (m1 m2 : MarketDetails)
    (he : env.eth_market_res = some m1) (hb : env.btc_market_res = some m2)
    (hclosed : m1.accepting_orders = false ∨ m2.accepting_orders = false) :
    execute_arbitrage sig_of true max_position_size proxy_wallet opportunity env =
      ⟨.ok (), [.fetchMarket opportunity.eth_condition_id,
                .fetchMarket opportunity.btc_condition_id]⟩ ∧
    (∀ order, TraderAction.signOrder order ∉
      (execute_arbitrage sig_of true max_position_size proxy_wallet opportunity env).actions) ∧
    (∀ payload, TraderAction.submitOrder payload ∉
      (execute_arbitrage sig_of true max_position_size proxy_wallet opportunity env).actions) ∧
    TraderAction.sizeCalc ∉
      (execute_arbitrage sig_of true max_position_size proxy_wallet opportunity env).actions := by
  have hcond : (!m1.accepting_orders || !m2.accepting_orders) = true := by
    rcases hclosed with h | h <;> simp [h]
  have hmain : execute_arbitrage sig_of true max_position_size proxy_wallet opportunity env =
      ⟨.ok (), [.fetchMarket opportunity.eth_condition_id,
                .fetchMarket opportunity.btc_condition_id]⟩ := by
    simp only [execute_arbitrage, he, hb, hcond, Bool.not_true, if_true]
    rfl
  refine ⟨hmain, fun order => ?_, fun payload => ?_, ?_⟩ <;> rw [hmain] <;> simp

/-- C7 witness: a run where the BTC market is closed aborts cleanly after the
two fetches. -/
theorem execute_aborts_when_market_not_accepting_witness :
    execute_arbitrage (fun _ => "sig") true 100 "0xwallet"
        ⟨"c-eth", "c-btc", "t-eth-up", "t-btc-down", 52/100, 45/100, 97/10, 3/10⟩
        ⟨some ⟨true, []⟩, some ⟨false, []⟩, some 50, 1700000000⟩ =
      ⟨.ok (), [.fetchMarket "c-eth", .fetchMarket "c-btc"]⟩ :=
  (execute_aborts_when_market_not_accepting (fun _ => "sig") 100 "0xwallet"
    ⟨"c-eth", "c-btc", "t-eth-up", "t-btc-down", 52/100, 45/100, 97/10, 3/10⟩
    ⟨some ⟨true, []⟩, some ⟨false, []⟩, some 50, 1700000000⟩
    ⟨true, []⟩ ⟨false, []⟩ rfl rfl (Or.inr rfl)).1

/-- Helper: the full action trace of a run in which every guard passes —
signer present, both markets fetched and accepting, balance refreshed,
recomputed size positive.  The ETH leg is signed with nonce `now` and the BTC
leg with nonce `now + 1`, both expiring at `now + 300`. -/
theorem execute_full_trace
    (sig_of : ClobOrder → String) (max_position_size : ℚ) (proxy_wallet : String)
    (opportunity : ArbitrageOpportunity) (env : ExecEnv) (m1 m2 : MarketDetails)
    (balance : ℚ)
    (he : env.eth_market_res = some m1) (hb : env.btc_market_res = some m2)
    (ha1 : m1.accepting_orders = true) (ha2 : m2.accepting_orders = true)
    (hbal : env.balance_res = some balance)
    (hpos : 0 < calculate_position_size max_position_size opportunity) :
    execute_arbitrage sig_of true max_position_size proxy_wallet opportunity env =
      ⟨.ok (),
       [.fetchMarket opportunity.eth_condition_id,
        .fetchMarket opportunity.btc_condition_id,
        .fetchBalance, .sizeCalc,
        .signOrder ⟨opportunity.eth_up_token_id, 0,
          to_u256_scaled opportunity.eth_up_price,
          to_u256_scaled (calculate_position_size max_position_size opportunity),
          env.now + 300, env.now⟩,
        .signOrder ⟨opportunity.btc_down_token_id, 0,
          to_u256_scaled opportunity.btc_down_price,
          to_u256_scaled (calculate_position_size max_position_size opportunity),
          env.now + 300, env.now + 1⟩,
        .submitOrder ⟨⟨opportunity.eth_up_token_id, "BUY",
            calculate_position_size max_position_size opportunity,
            opportunity.eth_up_price, "LIMIT"⟩,
          sig_of ⟨opportunity.eth_up_token_id, 0,
            to_u256_scaled opportunity.eth_up_price,
            to_u256_scaled (calculate_position_size max_position_size opportunity),
            env.now + 300, env.now⟩,
          proxy_wallet⟩,
        .submitOrder ⟨⟨opportunity.btc_down_token_id, "BUY",
            calculate_position_size max_position_size opportunity,
            opportunity.btc_down_price, "LIMIT"⟩,
          sig_of ⟨opportunity.btc_down_token_id, 0,
            to_u256_scaled opportunity.btc_down_price,
            to_u256_scaled (calculate_position_size max_position_size opportunity),
            env.now + 300, env.now + 1⟩,
          proxy_wallet⟩]⟩ := by
  have hsz : ¬ (calculate_position_size max_position_size opportunity ≤ 0) :=
    not_le.mpr hpos
  simp only [execute_arbitrage, he, hb, ha1, ha2, hbal, hsz, Bool.not_true,
    Bool.or_self, Bool.false_eq_true, if_false, if_neg hsz]
  rfl

/-- Helper: inversion of a successful `build_opportunity`: the guards that
must have passed and the exact `total_cost` of the emitted opportunity. -/
theorem build_opportunity_some_inv
    (detector : ArbitrageDetector) (eth_token btc_token : TokenPrice)
    (ce cb : String) (pe pb : ℚ) (o : ArbitrageOpportunity)
    (he : eth_token.ask = some pe) (hb : btc_token.ask = some pb)
    (hsome : build_opportunity detector eth_token btc_token ce cb = some o) :
    pe + pb < 1 ∧ detector.min_profit_threshold ≤ 1 - (pe + pb) ∧
    detector_shares (pe + pb) ≠ 0 ∧
    o.total_cost = (pe + pb) * (detector_shares (pe + pb) : ℚ) := by
  simp only [build_opportunity, he, hb] at hsome
  split_ifs at hsome with h1 h2 h3
  refine ⟨not_le.mp h1, not_lt.mp h2, h3, ?_⟩
  rw [← Option.some.inj hsome]

/-- Chain helper: when consecutive execution seconds are at least 2 apart,
the flattened per-execution nonce pairs `[t, t+1]` are strictly increasing. -/
theorem nonce_bind_chain : ∀ times : List ℕ,
    List.Chain' (fun a b => a + 2 ≤ b) times →
    List.Chain' (· < ·) (times.flatMap fun t => [t, t + 1])
  | [], _ => by simp
  | [t], _ => by
    have hflat : ([t].flatMap fun t => [t, t + 1]) = [t, t + 1] := by simp
    rw [hflat]
    exact List.chain'_cons.mpr ⟨Nat.lt_succ_self t, List.chain'_singleton _⟩
  | t :: u :: rest, h => by
    have h1 : t + 2 ≤ u := (List.chain'_cons.mp h).1
    have ih := nonce_bind_chain (u :: rest) (List.chain'_cons.mp h).2
    have hflat : ((t :: u :: rest).flatMap fun t => [t, t + 1]) =
        t :: (t + 1) :: ((u :: rest).flatMap fun t => [t, t + 1]) := by simp
    have hflat2 : ((u :: rest).flatMap fun t => [t, t + 1]) =
        u :: (u + 1) :: (rest.flatMap fun t => [t, t + 1]) := by simp
    rw [hflat, hflat2]
    rw [hflat2] at ih
    exact List.chain'_cons.mpr ⟨Nat.lt_succ_self t,
      List.chain'_cons.mpr ⟨by omega, ih⟩⟩

/-- C6 counterexample: two opportunities executed within the same wall-clock
second produce the nonce sequence `[t, t+1, t, t+1]`, which is not strictly
increasing — the nonces derive from the current unix second, not from a
process-wide monotone counter. -/
theorem nonces_repeat_across_executions_same_second :
    trace_nonces (execute_arbitrage (fun _ => "sig") true 100 "0xwallet"
        ⟨"c-eth", "c-btc", "t-e", "t-b", 52/100, 45/100, 97/10, 3/10⟩
        ⟨some ⟨true, []⟩, some ⟨true, []⟩, some 50, 1700000000⟩) =
      [1700000000, 1700000001] ∧
    ¬ List.Chain' (· < ·)
      (trace_nonces (execute_arbitrage (fun _ => "sig") true 100 "0xwallet"
        ⟨"c-eth", "c-btc", "t-e", "t-b", 52/100, 45/100, 97/10, 3/10⟩
        ⟨some ⟨true, []⟩, some ⟨true, []⟩, some 50, 1700000000⟩) ++
       trace_nonces (execute_arbitrage (fun _ => "sig") true 100 "0xwallet"
        ⟨"c-eth", "c-btc", "t-e", "t-b", 52/100, 45/100, 97/10, 3/10⟩
        ⟨some ⟨true, []⟩, some ⟨true, []⟩, some 50, 1700000000⟩)) := by
  have hsize : calculate_position_size 100
      ⟨"c-eth", "c-btc", "t-e", "t-b", 52/100, 45/100, 97/10, 3/10⟩ = 10 := by
    unfold calculate_position_size
    norm_num
  have h := execute_full_trace (fun _ => "sig") 100 "0xwallet"
    ⟨"c-eth", "c-btc", "t-e", "t-b", 52/100, 45/100, 97/10, 3/10⟩
    ⟨some ⟨true, []⟩, some ⟨true, []⟩, some 50, 1700000000⟩
    ⟨true, []⟩ ⟨true, []⟩ 50 rfl rfl rfl rfl rfl (by rw [hsize]; norm_num)
  rw [h]
  constructor
  · simp [trace_nonces]
  · intro hchain
    rw [show (⟨some ⟨true, []⟩, some ⟨true, []⟩, some 50, 1700000000⟩ : ExecEnv).now
        = 1700000000 from rfl] at hchain
    simp only [trace_nonces, List.filterMap] at hchain
    simp [List.chain'_cons] at hchain

/-- C6 (amended): within a single executed opportunity the second (BTC) leg's
nonce is the first (ETH) leg's nonce plus one — the two legs' nonces are
distinct even within the same second — and both nonces equal the wall-clock
unix second read at the start of the run (`now`, `now + 1`).  Across a
sequence of executed opportunities the nonces are therefore strictly
increasing only when consecutive executions are at least two seconds apart;
they are not strictly increasing in general (see the same-second
counterexample). -/
theorem leg_nonces_consecutive :
    (∀ (sig_of : ClobOrder → String) (max_position_size : ℚ) (proxy_wallet : String)
        (opportunity : ArbitrageOpportunity) (env : ExecEnv) (m1 m2 : MarketDetails)
        (balance : ℚ),
      env.eth_market_res = some m1 → env.btc_market_res = some m2 →
      m1.accepting_orders = true → m2.accepting_orders = true →
      env.balance_res = some balance →
      0 < calculate_position_size max_position_size opportunity →
      trace_nonces (execute_arbitrage sig_of true max_position_size proxy_wallet
        opportunity env) = [env.now, env.now + 1]) ∧
    (∀ times : List ℕ, List.Chain' (fun a b => a + 2 ≤ b) times →
      List.Chain' (· < ·) (times.flatMap fun t => [t, t + 1])) := by
  constructor
  · intro sig_of max_position_size proxy_wallet opportunity env m1 m2 balance
      he hb ha1 ha2 hbal hpos
    rw [execute_full_trace sig_of max_position_size proxy_wallet opportunity env
      m1 m2 balance he hb ha1 ha2 hbal hpos]
    simp [trace_nonces]
  · exact nonce_bind_chain

/-- C6 witness: a concrete full run signs exactly the nonce pair
`[now, now + 1]`, and times two seconds apart chain strictly. -/
theorem leg_nonces_consecutive_witness :
    trace_nonces (execute_arbitrage (fun _ => "s") true 100 "0xw"
        ⟨"a", "b", "ta", "tb", 1/2, 3/10, 48/5, 12/5⟩
        ⟨some ⟨true, []⟩, some ⟨true, []⟩, some 20, 42⟩) = [42, 43] ∧
    List.Chain' (· < ·) ([5, 9].flatMap fun t => [t, t + 1]) :=
  ⟨leg_nonces_consecutive.1 (fun _ => "s") 100 "0xw"
      ⟨"a", "b", "ta", "tb", 1/2, 3/10, 48/5, 12/5⟩
      ⟨some ⟨true, []⟩, some ⟨true, []⟩, some 20, 42⟩
      ⟨true, []⟩ ⟨true, []⟩ 20 rfl rfl rfl rfl rfl
      (by unfold calculate_position_size; norm_num),
   leg_nonces_consecutive.2 [5, 9] (by simp)⟩

/-- C5 counterexample: for the opportunity produced by the detector's
scenario (asks 0.52 and 0.45, ten shares, `total_cost` 9.70) with the default
maximum position notional 100, the Trader's sizing divides by `total_cost`
and yields 10, whereas the claimed division by the per-bundle cost 0.97 would
yield 103. -/
theorem position_size_divides_total_cost_not_bundle_cost :
    calculate_position_size 100
        ⟨"c-eth", "c-btc", "t-e", "t-b", 52/100, 45/100, 97/10, 3/10⟩ = 10 ∧
    spec_position_size 100
        ⟨"c-eth", "c-btc", "t-e", "t-b", 52/100, 45/100, 97/10, 3/10⟩ = 103 ∧
    (10 : ℚ) ≠ 103 := by
  refine ⟨?_, ?_, by norm_num⟩
  · unfold calculate_position_size
    norm_num
  · unfold spec_position_size
    norm_num

/-- C5 (amended): the Trader's second sizing pass divides the configured
maximum position notional by the opportunity's `total_cost` — which for a
detector-emitted opportunity is the bundle cost multiplied by the detector's
provisional share count, so the pass is *not* independent of the detector's
sizing — and floors the quotient. -/
theorem calculate_position_size_divides_total_cost :
    (∀ (max_position_size : ℚ) (opportunity : ArbitrageOpportunity),
      0 < opportunity.total_cost →
      calculate_position_size max_position_size opportunity =
        (⌊max_position_size / opportunity.total_cost⌋ : ℚ)) ∧
    (∀ (detector : ArbitrageDetector) (eth_token btc_token : TokenPrice)
        (ce cb : String) (pe pb : ℚ) (o : ArbitrageOpportunity)
        (max_position_size : ℚ),
      eth_token.ask = some pe → btc_token.ask = some pb →
      build_opportunity detector eth_token btc_token ce cb = some o →
      0 < pe + pb →
      calculate_position_size max_position_size o =
        (⌊max_position_size / ((pe + pb) * (detector_shares (pe + pb) : ℚ))⌋ : ℚ)) := by
  have hbase : ∀ (max_position_size : ℚ) (opportunity : ArbitrageOpportunity),
      0 < opportunity.total_cost →
      calculate_position_size max_position_size opportunity =
        (⌊max_position_size / opportunity.total_cost⌋ : ℚ) := by
    intro max_position_size opportunity h
    unfold calculate_position_size
    rw [if_neg (not_le.mpr h)]
  refine ⟨hbase, ?_⟩
  intro detector eth_token btc_token ce cb pe pb o max_position_size he hb hsome hcpos
  obtain ⟨-, -, hsh, htot⟩ :=
    build_opportunity_some_inv detector eth_token btc_token ce cb pe pb o he hb hsome
  have hshpos : (0 : ℚ) < (detector_shares (pe + pb) : ℚ) := by
    exact_mod_cast Nat.pos_of_ne_zero hsh
  have hpos : 0 < o.total_cost := by
    rw [htot]
    exact mul_pos hcpos hshpos
  rw [hbase max_position_size o hpos, htot]

/-- C5 witness: the amended statement at the concrete scenario opportunity. -/
theorem calculate_position_size_divides_total_cost_witness :
    calculate_position_size 100
        ⟨"c-eth", "c-btc", "ETH-UP", "BTC-DOWN", 52/100, 45/100, 97/10, 3/10⟩ =
      (⌊(100 : ℚ) / ((52/100 + 45/100) * (detector_shares (52/100 + 45/100) : ℚ))⌋ : ℚ) :=
  calculate_position_size_divides_total_cost.2 ⟨1/100⟩
    ⟨"ETH-UP", none, some (52/100)⟩ ⟨"BTC-DOWN", none, some (45/100)⟩
    "c-eth" "c-btc" (52/100) (45/100)
    ⟨"c-eth", "c-btc", "ETH-UP", "BTC-DOWN", 52/100, 45/100, 97/10, 3/10⟩
    100 rfl rfl
    (by
      rw [build_opportunity_some_of_guards ⟨1/100⟩ _ _ "c-eth" "c-btc" (52/100) (45/100)
        rfl rfl (by norm_num) (by norm_num) (by rw [detector_shares_scenario]; norm_num)]
      rw [detector_shares_scenario]
      norm_num)
    (by norm_num)
